import Mathlib

/-!
Verification of the Duffing-oscillator integration core of `src/main.py`.

The numerical core of the script consists of:
* `V`, `dVdx` : the double-well potential and its derivative (lines 35-36);
* `deriv`     : the state-derivative of the second-order equation of motion,
  written as a first-order system (lines 40-43);
* `solve_duffing` : time-grid construction, integration via `scipy.odeint`,
  and transient slicing (lines 45-56).

Python floats are modelled by the real numbers.  `scipy.integrate.odeint`
is an external collaborator (it is not part of this repository); it is
modelled as a parameter of type `Integrator`, whose documented contract
(one output state per input time point) enters theorems as an explicit
hypothesis where needed.  A concrete instance `euler_odeint` (an explicit
fixed-step first-order integrator with the same calling shape) is provided
so that theorems with hypotheses can be exercised on closed inputs.
-/

namespace Duffing

/-- Python `int(r)` for a real argument: truncation toward zero
(`int(2.7) = 2`, `int(-2.7) = -2`). -/
noncomputable def pyInt (r : ℝ) : ℤ :=
  if 0 ≤ r then ⌊r⌋ else -⌊-r⌋

/-- Python slicing `l[i:]` with an integer (possibly negative) index:
a nonnegative index drops the first `i` elements; a negative index keeps
the last `-i` elements (all of the list when `-i` exceeds its length). -/
def pySlice {α : Type*} (l : List α) (i : ℤ) : List α :=
  if 0 ≤ i then l.drop i.toNat else l.drop (l.length - (-i).toNat)

/-- `np.arange(0, stop, d)`: the list `[0*d, 1*d, ...]` of all multiples
`k*d` with `k*d < stop`, of length `⌈stop/d⌉₊` (empty when `stop/d ≤ 0`). -/
noncomputable def arange (stop d : ℝ) : List ℝ :=
  (List.range ⌈stop / d⌉₊).map (fun k : ℕ => (k : ℝ) * d)

/-- `V = lambda x: 0.5 * x**2 * (0.5 * x**2 - 1)` (line 35). -/
noncomputable def V (x : ℝ) : ℝ :=
  0.5 * x ^ 2 * (0.5 * x ^ 2 - 1)

/-- `dVdx = lambda x: x**3 - x` (line 36). -/
noncomputable def dVdx (x : ℝ) : ℝ :=
  x ^ 3 - x

/-- `deriv(X, t, gamma, delta, omega)` (lines 40-43): unpacks
`x, xdot = X` and returns `(xdot, -dVdx(x) - delta*xdot + gamma*cos(omega*t))`. -/
noncomputable def deriv (X : ℝ × ℝ) (t gamma delta omega : ℝ) : ℝ × ℝ :=
  let x := X.1
  let xdot := X.2
  (xdot, -dVdx x - delta * xdot + gamma * Real.cos (omega * t))

/-- The calling shape of `scipy.integrate.odeint` as used on line 54:
a derivative function, an initial state, and a time grid, producing a list
of states.  The library's contract (one state per time point, aligned with
the grid) is not baked in; it appears as a hypothesis where a claim needs it. -/
def Integrator : Type :=
  ((ℝ × ℝ) → ℝ → ℝ × ℝ) → (ℝ × ℝ) → List ℝ → List (ℝ × ℝ)

/-- Errors that the Python function body can raise before the integrator
runs: the divisions on lines 48-49 raise `ZeroDivisionError` when `omega`
or `dt_per_period` is zero. -/
inductive PyError
  | zeroDivision

/-- The body of `solve_duffing` (lines 45-56) in the non-raising case:
`period = 2*pi/omega`, `dt = 2*pi/omega / dt_per_period`,
`step = int(period/dt)`, `t = np.arange(0, tmax, dt)`, `X0 = [x0, v0]`,
`X = odeint(deriv, X0, t, args=(gamma, delta, omega))`,
`idx = int(t_trans/dt)`, returning `(t[idx:], X[idx:], dt, step)`. -/
noncomputable def solve_duffing_core (odeint : Integrator) (tmax : ℝ)
    (dt_per_period : ℤ) (t_trans x0 v0 gamma delta omega : ℝ) :
    List ℝ × List (ℝ × ℝ) × ℝ × ℤ :=
  let period := 2 * Real.pi / omega
  let dt := 2 * Real.pi / omega / (dt_per_period : ℝ)
  let step := pyInt (period / dt)
  let t := arange tmax dt
  let X0 := (x0, v0)
  let X := odeint (fun s tt => deriv s tt gamma delta omega) X0 t
  let idx := pyInt (t_trans / dt)
  (pySlice t idx, pySlice X idx, dt, step)

/-- `solve_duffing` (lines 45-56) as the caller sees it: Python raises
`ZeroDivisionError` from the divisions on lines 48-49 when `omega = 0` or
`dt_per_period = 0`; otherwise the body of `solve_duffing_core` runs and
its tuple is returned.  There is no other validation in the source. -/
noncomputable def solve_duffing (odeint : Integrator) (tmax : ℝ)
    (dt_per_period : ℤ) (t_trans x0 v0 gamma delta omega : ℝ) :
    Except PyError (List ℝ × List (ℝ × ℝ) × ℝ × ℤ) :=
  if omega = 0 ∨ dt_per_period = 0 then Except.error PyError.zeroDivision
  else Except.ok
    (solve_duffing_core odeint tmax dt_per_period t_trans x0 v0 gamma delta omega)

/-- Step function of an explicit first-order (Euler) integrator: from state
`X` at time `t`, produce the states at the remaining grid times. -/
noncomputable def eulerGo (f : (ℝ × ℝ) → ℝ → ℝ × ℝ) :
    (ℝ × ℝ) → ℝ → List ℝ → List (ℝ × ℝ)
  | _, _, [] => []
  | X, t, t1 :: rest =>
      let k := f X t
      let X1 := (X.1 + (t1 - t) * k.1, X.2 + (t1 - t) * k.2)
      X1 :: eulerGo f X1 t1 rest

/-- A concrete integrator with the `odeint` calling shape: the first output
row is the initial state (as for `scipy.odeint`) and each later row is one
explicit Euler step from the previous grid time. -/
noncomputable def euler_odeint : Integrator := fun f X0 ts =>
  match ts with
  | [] => []
  | t0 :: rest => X0 :: eulerGo f X0 t0 rest

theorem eulerGo_length (f : (ℝ × ℝ) → ℝ → ℝ × ℝ) (X : ℝ × ℝ) (t : ℝ)
    (ts : List ℝ) : (eulerGo f X t ts).length = ts.length := by
  induction ts generalizing X t with
  | nil => rfl
  | cons t1 rest ih => simp [eulerGo, ih]

theorem euler_odeint_length (f : (ℝ × ℝ) → ℝ → ℝ × ℝ) (X0 : ℝ × ℝ)
    (ts : List ℝ) : (euler_odeint f X0 ts).length = ts.length := by
  cases ts with
  | nil => rfl
  | cons t0 rest => simp [euler_odeint, eulerGo_length]

theorem solve_duffing_eq_ok (odeint : Integrator) (tmax : ℝ) (dt_per_period : ℤ)
    (t_trans x0 v0 gamma delta omega : ℝ) (hw : omega ≠ 0) (hn : dt_per_period ≠ 0) :
    solve_duffing odeint tmax dt_per_period t_trans x0 v0 gamma delta omega =
      Except.ok
        (solve_duffing_core odeint tmax dt_per_period t_trans x0 v0 gamma delta omega) := by
  have h : ¬(omega = 0 ∨ dt_per_period = 0) := by
    push_neg
    exact ⟨hw, hn⟩
  simp only [solve_duffing, if_neg h]

theorem step_core_eq (odeint : Integrator) (tmax : ℝ) (dt_per_period : ℤ)
    (t_trans x0 v0 gamma delta omega : ℝ) (hw : 0 < omega) (hn : 1 ≤ dt_per_period) :
    (solve_duffing_core odeint tmax dt_per_period t_trans x0 v0 gamma delta omega).2.2.2 =
      dt_per_period := by
  show pyInt (2 * Real.pi / omega /
      (2 * Real.pi / omega / (dt_per_period : ℝ))) = dt_per_period
  have hn0 : ((dt_per_period : ℝ)) ≠ 0 := by
    have : (0 : ℤ) < dt_per_period := by omega
    exact_mod_cast this.ne'
  have hper : (0 : ℝ) < 2 * Real.pi / omega := by positivity
  have h1 : 2 * Real.pi / omega / (2 * Real.pi / omega / (dt_per_period : ℝ)) =
      (dt_per_period : ℝ) := by
    field_simp
    ring
  rw [h1, pyInt, if_pos]
  · exact Int.floor_intCast dt_per_period
  · have : (0 : ℤ) ≤ dt_per_period := by omega
    exact_mod_cast this

theorem dt_core_eq (odeint : Integrator) (tmax : ℝ) (dt_per_period : ℤ)
    (t_trans x0 v0 gamma delta omega : ℝ) :
    (solve_duffing_core odeint tmax dt_per_period t_trans x0 v0 gamma delta omega).2.2.1 =
      2 * Real.pi / omega / (dt_per_period : ℝ) := rfl

theorem arange_getElem (stop d : ℝ) (hd : 0 < d) (k : ℕ) :
    (arange stop d)[k]? =
      if (k : ℝ) * d < stop then some ((k : ℝ) * d) else none := by
  rw [arange, List.getElem?_map]
  have hiff : k < ⌈stop / d⌉₊ ↔ (k : ℝ) * d < stop := by
    rw [Nat.lt_ceil, lt_div_iff₀ hd]
  by_cases hk : k < ⌈stop / d⌉₊
  · rw [List.getElem?_range hk, if_pos (hiff.mp hk)]
    rfl
  · rw [List.getElem?_eq_none (by simpa using Nat.le_of_not_lt hk),
      if_neg (fun hc => hk (hiff.mpr hc))]
    rfl

/-- Claim C4: `deriv` returns the pair whose first component is exactly the
input velocity `xdot` and whose second component is
`-dVdx(x) - delta*xdot + gamma*cos(omega*t)`. -/
theorem deriv_spec (x xdot t gamma delta omega : ℝ) :
    deriv (x, xdot) t gamma delta omega =
      (xdot, -dVdx x - delta * xdot + gamma * Real.cos (omega * t)) := rfl

/-- Claim C5: `V x = 0.5*x^2*(0.5*x^2 - 1)`, `dVdx x = x^3 - x`, and `dVdx`
is exactly the mathematical derivative of `V` at every real point. -/
theorem V_dVdx_spec (x : ℝ) :
    V x = 0.5 * x ^ 2 * (0.5 * x ^ 2 - 1) ∧ dVdx x = x ^ 3 - x ∧
      HasDerivAt V (dVdx x) x := by
  refine ⟨rfl, rfl, ?_⟩
  have h : HasDerivAt (fun y : ℝ => 0.5 * y ^ 2 * (0.5 * y ^ 2 - 1))
      (x ^ 3 - x) x := by
    have h1 : HasDerivAt (fun y : ℝ => y) 1 x := hasDerivAt_id x
    have h2 : HasDerivAt (fun y : ℝ => y ^ 2) (2 * x) x := by
      simpa using h1.pow 2
    have h3 : HasDerivAt (fun y : ℝ => 0.5 * y ^ 2) (0.5 * (2 * x)) x :=
      h2.const_mul 0.5
    have h4 : HasDerivAt (fun y : ℝ => 0.5 * y ^ 2 - 1) (0.5 * (2 * x)) x :=
      h3.sub_const 1
    have h5 := h3.mul h4
    convert h5 using 1
    ring
  have hV : V = fun y : ℝ => 0.5 * y ^ 2 * (0.5 * y ^ 2 - 1) := rfl
  rw [hV, dVdx]
  exact h

/-- Claim C8: the potential is an even function and its derivative is odd,
exactly: `V (-x) = V x` and `dVdx (-x) = -dVdx x`. -/
theorem potential_even_odd (x : ℝ) :
    V (-x) = V x ∧ dVdx (-x) = -dVdx x := by
  constructor
  · show 0.5 * (-x) ^ 2 * (0.5 * (-x) ^ 2 - 1) = 0.5 * x ^ 2 * (0.5 * x ^ 2 - 1)
    ring
  · show (-x) ^ 3 - (-x) = -(x ^ 3 - x)
    ring

/-- Claim C3: for `omega > 0` and integer `dt_per_period ≥ 2`, the `step`
value returned by `solve_duffing` (computed as `int(period/dt)`) equals
`dt_per_period` exactly. -/
theorem poincare_step_eq (odeint : Integrator) (tmax : ℝ) (dt_per_period : ℤ)
    (t_trans x0 v0 gamma delta omega : ℝ) (hw : 0 < omega) (hn : 2 ≤ dt_per_period) :
    ∃ tg X dtv,
      solve_duffing odeint tmax dt_per_period t_trans x0 v0 gamma delta omega =
        Except.ok (tg, X, dtv, dt_per_period) := by
  set c := solve_duffing_core odeint tmax dt_per_period t_trans x0 v0 gamma delta omega
    with hc
  refine ⟨c.1, c.2.1, c.2.2.1, ?_⟩
  rw [solve_duffing_eq_ok odeint tmax dt_per_period t_trans x0 v0 gamma delta omega
    hw.ne' (by omega)]
  have h4 : c.2.2.2 = dt_per_period := by
    rw [hc]
    exact step_core_eq odeint tmax dt_per_period t_trans x0 v0 gamma delta omega hw
      (by omega)
  calc Except.ok (ε := PyError) c = Except.ok (c.1, c.2.1, c.2.2.1, c.2.2.2) := rfl
    _ = Except.ok (c.1, c.2.1, c.2.2.1, dt_per_period) := by rw [h4]

theorem poincare_step_eq_witness :
    ∃ tg X dtv,
      solve_duffing euler_odeint 100 100 10 0 0 0.08 0.02 0.28 =
        Except.ok (tg, X, dtv, 100) :=
  poincare_step_eq euler_odeint 100 100 10 0 0 0.08 0.02 0.28
    (by norm_num) (by norm_num)

/-- Claim C6: for valid inputs the time grid is the uniformly spaced
sequence `k * dt` for exactly those `k` with `k * dt < tmax` (half-open:
`tmax` excluded), with `dt = (2*pi/omega)/dt_per_period > 0`; with
`t_trans = 0` the solver returns this full grid together with that `dt`. -/
theorem time_grid_spec (odeint : Integrator) (tmax : ℝ) (dt_per_period : ℤ)
    (x0 v0 gamma delta omega : ℝ) (hw : 0 < omega) (hn : 2 ≤ dt_per_period) :
    0 < 2 * Real.pi / omega / (dt_per_period : ℝ) ∧
    (∀ k : ℕ, (arange tmax (2 * Real.pi / omega / (dt_per_period : ℝ)))[k]? =
      if (k : ℝ) * (2 * Real.pi / omega / (dt_per_period : ℝ)) < tmax
      then some ((k : ℝ) * (2 * Real.pi / omega / (dt_per_period : ℝ))) else none) ∧
    (solve_duffing_core odeint tmax dt_per_period 0 x0 v0 gamma delta omega).1 =
      arange tmax (2 * Real.pi / omega / (dt_per_period : ℝ)) ∧
    (solve_duffing_core odeint tmax dt_per_period 0 x0 v0 gamma delta omega).2.2.1 =
      2 * Real.pi / omega / (dt_per_period : ℝ) := by
  have hn0 : (0 : ℝ) < (dt_per_period : ℝ) := by
    have : (0 : ℤ) < dt_per_period := by omega
    exact_mod_cast this
  have hdt : 0 < 2 * Real.pi / omega / (dt_per_period : ℝ) := by positivity
  refine ⟨hdt, fun k => arange_getElem tmax _ hdt k, ?_, rfl⟩
  show pySlice (arange tmax (2 * Real.pi / omega / (dt_per_period : ℝ)))
    (pyInt (0 / (2 * Real.pi / omega / (dt_per_period : ℝ)))) = _
  rw [zero_div]
  have h0 : pyInt 0 = 0 := by
    rw [pyInt, if_pos le_rfl, Int.floor_zero]
  rw [h0, pySlice, if_pos le_rfl, Int.toNat_zero, List.drop_zero]

theorem time_grid_spec_witness :
    0 < 2 * Real.pi / 0.28 / ((100 : ℤ) : ℝ) ∧
    (∀ k : ℕ, (arange 100 (2 * Real.pi / 0.28 / ((100 : ℤ) : ℝ)))[k]? =
      if (k : ℝ) * (2 * Real.pi / 0.28 / ((100 : ℤ) : ℝ)) < 100
      then some ((k : ℝ) * (2 * Real.pi / 0.28 / ((100 : ℤ) : ℝ))) else none) ∧
    (solve_duffing_core euler_odeint 100 100 0 0 0 0.08 0.02 0.28).1 =
      arange 100 (2 * Real.pi / 0.28 / ((100 : ℤ) : ℝ)) ∧
    (solve_duffing_core euler_odeint 100 100 0 0 0 0.08 0.02 0.28).2.2.1 =
      2 * Real.pi / 0.28 / ((100 : ℤ) : ℝ) :=
  time_grid_spec euler_odeint 100 100 0 0 0.08 0.02 0.28 (by norm_num) (by norm_num)

/-- Claim C10: two calls that agree on `omega` and `dt_per_period` but differ
arbitrarily in `tmax`, `t_trans`, `x0`, `v0`, `gamma`, `delta` (and even in
the integrator) return equal `dt` values and equal `step` values. -/
theorem dt_step_depend_only (o1 o2 : Integrator)
    (tmax1 tmax2 tt1 tt2 x01 x02 v01 v02 g1 g2 d1 d2 omega : ℝ) (dt_per_period : ℤ) :
    (solve_duffing_core o1 tmax1 dt_per_period tt1 x01 v01 g1 d1 omega).2.2 =
      (solve_duffing_core o2 tmax2 dt_per_period tt2 x02 v02 g2 d2 omega).2.2 ∧
    (solve_duffing o1 tmax1 dt_per_period tt1 x01 v01 g1 d1 omega).map
        (fun r => r.2.2) =
      (solve_duffing o2 tmax2 dt_per_period tt2 x02 v02 g2 d2 omega).map
        (fun r => r.2.2) := by
  refine ⟨rfl, ?_⟩
  by_cases h : omega = 0 ∨ dt_per_period = 0
  · simp only [solve_duffing, if_pos h]
  · simp only [solve_duffing, if_neg h]
    rfl

theorem pySlice_nonneg {α : Type*} (l : List α) (r : ℝ) (hr : 0 ≤ r) :
    pySlice l (pyInt r) = l.drop ⌊r⌋₊ := by
  rw [pyInt, if_pos hr, pySlice, if_pos (Int.floor_nonneg.mpr hr), Int.floor_toNat]

theorem first_core_eq (odeint : Integrator) (tmax : ℝ) (dt_per_period : ℤ)
    (t_trans x0 v0 gamma delta omega : ℝ) :
    (solve_duffing_core odeint tmax dt_per_period t_trans x0 v0 gamma delta omega).1 =
      pySlice (arange tmax (2 * Real.pi / omega / (dt_per_period : ℝ)))
        (pyInt (t_trans / (2 * Real.pi / omega / (dt_per_period : ℝ)))) := rfl

theorem traj_core_eq (odeint : Integrator) (tmax : ℝ) (dt_per_period : ℤ)
    (t_trans x0 v0 gamma delta omega : ℝ) :
    (solve_duffing_core odeint tmax dt_per_period t_trans x0 v0 gamma delta omega).2.1 =
      pySlice (odeint (fun s tt => deriv s tt gamma delta omega) (x0, v0)
          (arange tmax (2 * Real.pi / omega / (dt_per_period : ℝ))))
        (pyInt (t_trans / (2 * Real.pi / omega / (dt_per_period : ℝ)))) := rfl

theorem head_slice_arange (tmax t_trans d : ℝ) (hd : 0 < d) (htt0 : 0 ≤ t_trans)
    (htt : t_trans < tmax) :
    (pySlice (arange tmax d) (pyInt (t_trans / d))).head?
      = some ((⌊t_trans / d⌋₊ : ℝ) * d) ∧
    (⌊t_trans / d⌋₊ : ℝ) * d ≤ t_trans ∧
    t_trans - (⌊t_trans / d⌋₊ : ℝ) * d < d := by
  have hq0 : 0 ≤ t_trans / d := div_nonneg htt0 hd.le
  have hmle : (⌊t_trans / d⌋₊ : ℝ) ≤ t_trans / d := Nat.floor_le hq0
  have hm1 : t_trans / d < (⌊t_trans / d⌋₊ : ℝ) + 1 := Nat.lt_floor_add_one _
  have ht0le : (⌊t_trans / d⌋₊ : ℝ) * d ≤ t_trans := by
    have h2 := mul_le_mul_of_nonneg_right hmle hd.le
    rwa [div_mul_cancel₀ _ hd.ne'] at h2
  have ht0lt : t_trans < ((⌊t_trans / d⌋₊ : ℝ) + 1) * d := by
    have h2 := mul_lt_mul_of_pos_right hm1 hd
    rwa [div_mul_cancel₀ _ hd.ne'] at h2
  rw [add_mul, one_mul] at ht0lt
  refine ⟨?_, ht0le, by linarith⟩
  rw [pySlice_nonneg _ _ hq0, List.head?_drop, arange_getElem tmax d hd,
    if_pos (lt_of_le_of_lt ht0le htt)]

/-- Claim C1 (amended): for valid inputs the first returned time is
`⌊t_trans/dt⌋ * dt`, which satisfies `t_grid[0] ≤ t_trans` and
`t_trans - t_grid[0] < dt`: the cutoff `idx = ⌊t_trans/dt⌋` keeps the last
grid point at or before `t_trans`, so the first returned time can lie up to
`dt` BELOW `t_trans` (not at or above it, as the claim stated). -/
theorem trans_cutoff_le (odeint : Integrator) (tmax : ℝ) (dt_per_period : ℤ)
    (t_trans x0 v0 gamma delta omega : ℝ) (htmax : 0 < tmax) (hn : 2 ≤ dt_per_period)
    (htt0 : 0 ≤ t_trans) (htt : t_trans < tmax) (hw : 0 < omega) :
    ∃ t0,
      ((solve_duffing_core odeint tmax dt_per_period t_trans x0 v0 gamma
        delta omega).1).head? = some t0 ∧
      t0 ≤ t_trans ∧
      t_trans - t0 < 2 * Real.pi / omega / (dt_per_period : ℝ) ∧
      solve_duffing odeint tmax dt_per_period t_trans x0 v0 gamma delta omega =
        Except.ok (solve_duffing_core odeint tmax dt_per_period t_trans x0 v0
          gamma delta omega) := by
  have hn0 : (0 : ℝ) < (dt_per_period : ℝ) := by
    have h2 : (0 : ℤ) < dt_per_period := by omega
    exact_mod_cast h2
  have hdt : 0 < 2 * Real.pi / omega / (dt_per_period : ℝ) := by positivity
  obtain ⟨h1, h2, h3⟩ := head_slice_arange tmax t_trans _ hdt htt0 htt
  refine ⟨(⌊t_trans / (2 * Real.pi / omega / (dt_per_period : ℝ))⌋₊ : ℝ) *
      (2 * Real.pi / omega / (dt_per_period : ℝ)), ?_, h2, h3,
    solve_duffing_eq_ok _ _ _ _ _ _ _ _ _ hw.ne' (by omega)⟩
  rw [first_core_eq]
  exact h1

theorem trans_cutoff_le_witness :
    ∃ t0,
      ((solve_duffing_core euler_odeint 200 100 50 0 0 0.08 0.02 0.28).1).head?
        = some t0 ∧
      t0 ≤ 50 ∧
      (50 : ℝ) - t0 < 2 * Real.pi / 0.28 / ((100 : ℤ) : ℝ) ∧
      solve_duffing euler_odeint 200 100 50 0 0 0.08 0.02 0.28 =
        Except.ok (solve_duffing_core euler_odeint 200 100 50 0 0 0.08 0.02 0.28) :=
  trans_cutoff_le euler_odeint 200 100 50 0 0 0.08 0.02 0.28
    (by norm_num) (by norm_num) (by norm_num) (by norm_num) (by norm_num)

/-- Claim C1 as stated is false at its own concrete scenario: with
`tmax=100, dt_per_period=100, t_trans=10, x0=0, v0=0, gamma=0.08,
delta=0.02, omega=0.28`, the first returned time is `44 * dt = 22*pi/7`,
which is strictly BELOW `t_trans = 10`, contradicting `t_grid[0] >= 10`. -/
theorem trans_cutoff_cex :
    ((solve_duffing_core euler_odeint 100 100 10 0 0 0.08 0.02 0.28).1).head?
      = some ((44 : ℝ) * (2 * Real.pi / 0.28 / ((100 : ℤ) : ℝ))) ∧
    (44 : ℝ) * (2 * Real.pi / 0.28 / ((100 : ℤ) : ℝ)) < 10 := by
  have hpi1 : (3.14 : ℝ) < Real.pi := Real.pi_gt_314
  have hpi2 : Real.pi < 3.15 := Real.pi_lt_315
  have hdtv : (2 * Real.pi / 0.28 / ((100 : ℤ) : ℝ)) = Real.pi / 14 := by
    push_cast
    ring
  have hd14 : (0 : ℝ) < Real.pi / 14 := by positivity
  have hfl : ⌊(10 : ℝ) / (Real.pi / 14)⌋₊ = 44 := by
    rw [div_div_eq_mul_div]
    rw [Nat.floor_eq_iff (by positivity)]
    constructor
    · rw [le_div_iff₀ Real.pi_pos]
      push_cast
      nlinarith
    · rw [div_lt_iff₀ Real.pi_pos]
      push_cast
      nlinarith
  constructor
  · rw [first_core_eq, hdtv, pySlice_nonneg _ _ (by positivity), List.head?_drop,
      hfl, arange_getElem 100 _ hd14 44, if_pos (by push_cast; nlinarith)]
    push_cast
    ring_nf
  · rw [hdtv]
    nlinarith

/-- Claim C2 (amended): `solve_duffing` performs no entry validation.
A call with `t_trans ≥ tmax` (other parameters valid) returns normally,
with no rejection of any kind; `omega = 0` or `dt_per_period = 0` surfaces
as a `ZeroDivisionError` arithmetic fault from the `dt` computation, not as
a precondition-violation signal. -/
theorem no_validation (odeint : Integrator) (tmax : ℝ) (dt_per_period : ℤ)
    (t_trans x0 v0 gamma delta omega : ℝ) (hw : 0 < omega) (hn : 2 ≤ dt_per_period)
    (h : tmax ≤ t_trans) :
    (solve_duffing odeint tmax dt_per_period t_trans x0 v0 gamma delta omega).isOk
      = true ∧
    solve_duffing odeint tmax dt_per_period t_trans x0 v0 gamma delta 0 =
      Except.error PyError.zeroDivision ∧
    solve_duffing odeint tmax 0 t_trans x0 v0 gamma delta omega =
      Except.error PyError.zeroDivision := by
  refine ⟨?_, ?_, ?_⟩
  · rw [solve_duffing_eq_ok _ _ _ _ _ _ _ _ _ hw.ne' (by omega)]
    rfl
  · simp [solve_duffing]
  · simp [solve_duffing]

theorem no_validation_witness :
    (solve_duffing euler_odeint 1 2 5 0 0 0 0 1).isOk = true ∧
    solve_duffing euler_odeint 1 2 5 0 0 0 0 0 = Except.error PyError.zeroDivision ∧
    solve_duffing euler_odeint 1 0 5 0 0 0 0 1 = Except.error PyError.zeroDivision :=
  no_validation euler_odeint 1 2 5 0 0 0 0 1 (by norm_num) (by norm_num) (by norm_num)

/-- Claim C2 as stated is false: the invalid input `t_trans = tmax = 2`
(with `omega = pi > 0` and `dt_per_period = 2` valid) is not rejected:
the call returns normally. -/
theorem no_validation_cex :
    (solve_duffing euler_odeint 2 2 2 0 0 0 0 Real.pi).isOk = true := by
  rw [solve_duffing_eq_ok euler_odeint 2 2 2 0 0 0 0 Real.pi Real.pi_ne_zero
    (by norm_num)]
  rfl

/-- Claim C7: for valid inputs, and any integrator satisfying `odeint`'s
documented contract of one output state per input time point, the returned
grid and trajectory have equal length, namely the full grid length minus
`idx = ⌊t_trans/dt⌋`, and they stay index-aligned: entry `i` of each
returned list is entry `idx + i` of the corresponding unsliced list. -/
theorem grid_trajectory_aligned (odeint : Integrator) (tmax : ℝ) (dt_per_period : ℤ)
    (t_trans x0 v0 gamma delta omega : ℝ) (hw : 0 < omega) (hn : 2 ≤ dt_per_period)
    (htt0 : 0 ≤ t_trans)
    (hlen : ∀ f X0 ts, (odeint f X0 ts).length = ts.length) :
    ((solve_duffing_core odeint tmax dt_per_period t_trans x0 v0 gamma delta
        omega).1).length =
      ((solve_duffing_core odeint tmax dt_per_period t_trans x0 v0 gamma delta
        omega).2.1).length ∧
    ((solve_duffing_core odeint tmax dt_per_period t_trans x0 v0 gamma delta
        omega).1).length =
      (arange tmax (2 * Real.pi / omega / (dt_per_period : ℝ))).length -
        ⌊t_trans / (2 * Real.pi / omega / (dt_per_period : ℝ))⌋₊ ∧
    ∀ i : ℕ,
      ((solve_duffing_core odeint tmax dt_per_period t_trans x0 v0 gamma delta
          omega).1)[i]? =
        (arange tmax (2 * Real.pi / omega /
          (dt_per_period : ℝ)))[⌊t_trans / (2 * Real.pi / omega /
            (dt_per_period : ℝ))⌋₊ + i]? ∧
      ((solve_duffing_core odeint tmax dt_per_period t_trans x0 v0 gamma delta
          omega).2.1)[i]? =
        (odeint (fun s tt => deriv s tt gamma delta omega) (x0, v0)
          (arange tmax (2 * Real.pi / omega /
            (dt_per_period : ℝ))))[⌊t_trans / (2 * Real.pi / omega /
              (dt_per_period : ℝ))⌋₊ + i]? := by
  have hn0 : (0 : ℝ) < (dt_per_period : ℝ) := by
    have h2 : (0 : ℤ) < dt_per_period := by omega
    exact_mod_cast h2
  have hdt : 0 < 2 * Real.pi / omega / (dt_per_period : ℝ) := by positivity
  have hq0 : 0 ≤ t_trans / (2 * Real.pi / omega / (dt_per_period : ℝ)) :=
    div_nonneg htt0 hdt.le
  rw [first_core_eq, traj_core_eq, pySlice_nonneg _ _ hq0, pySlice_nonneg _ _ hq0]
  refine ⟨?_, ?_, fun i => ⟨?_, ?_⟩⟩
  · rw [List.length_drop, List.length_drop, hlen]
  · rw [List.length_drop]
  · rw [List.getElem?_drop]
  · rw [List.getElem?_drop]

theorem grid_trajectory_aligned_witness :
    ((solve_duffing_core euler_odeint 100 100 10 0 0 0.08 0.02 0.28).1).length =
      ((solve_duffing_core euler_odeint 100 100 10 0 0 0.08 0.02 0.28).2.1).length ∧
    ((solve_duffing_core euler_odeint 100 100 10 0 0 0.08 0.02 0.28).1).length =
      (arange 100 (2 * Real.pi / 0.28 / ((100 : ℤ) : ℝ))).length -
        ⌊(10 : ℝ) / (2 * Real.pi / 0.28 / ((100 : ℤ) : ℝ))⌋₊ ∧
    ∀ i : ℕ,
      ((solve_duffing_core euler_odeint 100 100 10 0 0 0.08 0.02 0.28).1)[i]? =
        (arange 100 (2 * Real.pi / 0.28 /
          ((100 : ℤ) : ℝ)))[⌊(10 : ℝ) / (2 * Real.pi / 0.28 /
            ((100 : ℤ) : ℝ))⌋₊ + i]? ∧
      ((solve_duffing_core euler_odeint 100 100 10 0 0 0.08 0.02 0.28).2.1)[i]? =
        (euler_odeint (fun s tt => deriv s tt 0.08 0.02 0.28) (0, 0)
          (arange 100 (2 * Real.pi / 0.28 /
            ((100 : ℤ) : ℝ))))[⌊(10 : ℝ) / (2 * Real.pi / 0.28 /
              ((100 : ℤ) : ℝ))⌋₊ + i]? :=
  grid_trajectory_aligned euler_odeint 100 100 10 0 0 0.08 0.02 0.28
    (by norm_num) (by norm_num) (by norm_num) euler_odeint_length

/-- Claim C9 (amended): with `t_trans ≥ tmax` (and otherwise valid
parameters) `solve_duffing` raises no error and returns the usual `dt` and
`step` values, but the returned time grid and trajectory have length AT
MOST one rather than exactly zero: one grid point survives the slice
whenever `⌊t_trans/dt⌋ < ⌈tmax/dt⌉`. -/
theorem t_trans_ge_tmax_short (odeint : Integrator) (tmax : ℝ) (dt_per_period : ℤ)
    (t_trans x0 v0 gamma delta omega : ℝ) (hw : 0 < omega) (hn : 2 ≤ dt_per_period)
    (htm : 0 < tmax) (h : tmax ≤ t_trans)
    (hlen : ∀ f X0 ts, (odeint f X0 ts).length = ts.length) :
    solve_duffing odeint tmax dt_per_period t_trans x0 v0 gamma delta omega =
      Except.ok (solve_duffing_core odeint tmax dt_per_period t_trans x0 v0
        gamma delta omega) ∧
    ((solve_duffing_core odeint tmax dt_per_period t_trans x0 v0 gamma delta
        omega).1).length ≤ 1 ∧
    ((solve_duffing_core odeint tmax dt_per_period t_trans x0 v0 gamma delta
        omega).2.1).length ≤ 1 ∧
    (solve_duffing_core odeint tmax dt_per_period t_trans x0 v0 gamma delta
        omega).2.2.1 = 2 * Real.pi / omega / (dt_per_period : ℝ) ∧
    (solve_duffing_core odeint tmax dt_per_period t_trans x0 v0 gamma delta
        omega).2.2.2 = dt_per_period := by
  have hn0 : (0 : ℝ) < (dt_per_period : ℝ) := by
    have h2 : (0 : ℤ) < dt_per_period := by omega
    exact_mod_cast h2
  have hdt : 0 < 2 * Real.pi / omega / (dt_per_period : ℝ) := by positivity
  have htt0 : 0 ≤ t_trans := le_trans htm.le h
  have hq0 : 0 ≤ t_trans / (2 * Real.pi / omega / (dt_per_period : ℝ)) :=
    div_nonneg htt0 hdt.le
  have hmono : tmax / (2 * Real.pi / omega / (dt_per_period : ℝ)) ≤
      t_trans / (2 * Real.pi / omega / (dt_per_period : ℝ)) := by gcongr
  have hceil : ⌈tmax / (2 * Real.pi / omega / (dt_per_period : ℝ))⌉₊ ≤
      ⌊t_trans / (2 * Real.pi / omega / (dt_per_period : ℝ))⌋₊ + 1 := by
    have h3 := Nat.ceil_le_floor_add_one
      (tmax / (2 * Real.pi / omega / (dt_per_period : ℝ)))
    have h4 := Nat.floor_mono hmono
    omega
  refine ⟨solve_duffing_eq_ok _ _ _ _ _ _ _ _ _ hw.ne' (by omega), ?_, ?_, rfl,
    step_core_eq _ _ _ _ _ _ _ _ _ hw (by omega)⟩
  · rw [first_core_eq, pySlice_nonneg _ _ hq0, List.length_drop, arange,
      List.length_map, List.length_range]
    omega
  · rw [traj_core_eq, pySlice_nonneg _ _ hq0, List.length_drop, hlen, arange,
      List.length_map, List.length_range]
    omega

theorem t_trans_ge_tmax_short_witness :
    solve_duffing euler_odeint 1 2 5 0 0 0.4 0.1 1 =
      Except.ok (solve_duffing_core euler_odeint 1 2 5 0 0 0.4 0.1 1) ∧
    ((solve_duffing_core euler_odeint 1 2 5 0 0 0.4 0.1 1).1).length ≤ 1 ∧
    ((solve_duffing_core euler_odeint 1 2 5 0 0 0.4 0.1 1).2.1).length ≤ 1 ∧
    (solve_duffing_core euler_odeint 1 2 5 0 0 0.4 0.1 1).2.2.1 =
      2 * Real.pi / 1 / ((2 : ℤ) : ℝ) ∧
    (solve_duffing_core euler_odeint 1 2 5 0 0 0.4 0.1 1).2.2.2 = 2 :=
  t_trans_ge_tmax_short euler_odeint 1 2 5 0 0 0.4 0.1 1
    (by norm_num) (by norm_num) (by norm_num) (by norm_num) euler_odeint_length

/-- Claim C9 as stated is false: with `tmax = t_trans = 3/2`,
`dt_per_period = 2` and `omega = pi` (so `dt = 1`), the returned time grid
is `[1]`, not empty: the point `t = 1` of the full grid `[0, 1]` survives
the slice at `idx = ⌊(3/2)/1⌋ = 1` even though `t_trans ≥ tmax`. -/
theorem empty_on_large_t_trans_cex :
    (solve_duffing_core euler_odeint (3 / 2) 2 (3 / 2) 0 0 0 0 Real.pi).1 =
      [(1 : ℝ)] ∧ ([(1 : ℝ)] : List ℝ) ≠ [] := by
  have hdtv : (2 * Real.pi / Real.pi / ((2 : ℤ) : ℝ)) = 1 := by
    rw [mul_div_assoc, div_self Real.pi_ne_zero, mul_one]
    push_cast
    norm_num
  refine ⟨?_, by simp⟩
  rw [first_core_eq, hdtv]
  have hfl : ⌊(3 / 2 : ℝ) / 1⌋₊ = 1 := by
    rw [div_one, Nat.floor_eq_iff (by norm_num)]
    norm_num
  have hcl : ⌈(3 / 2 : ℝ) / 1⌉₊ = 2 := by
    rw [div_one, Nat.ceil_eq_iff (by norm_num)]
    norm_num
  rw [pySlice_nonneg _ _ (by norm_num), hfl, arange, hcl]
  norm_num [List.range_succ]

end Duffing
